import Mathlib

/-!
A shallow embedding of the `codecraft` Python code-generation library
(package `codecraft`: `core/builder.py`, `core/context.py`, `core/node.py`,
`utils/indentation.py`, `utils/helpers.py`, `elements/imports.py`,
`elements/control_flow.py`, `elements/class_element.py`,
`elements/function_element.py`, `elements/decorators.py`).

Modelling conventions:
* Python strings are `String`; lexicographic comparison of Python strings
  (by code point) is modelled as `≤` on `String.data : List Char`, which is
  the same lexicographic order and kernel-reduces.
* Python `set` collections are modelled as duplicate-free `List`s in
  insertion order; set iteration order is unspecified in Python, so no
  theorem below depends on the relative order of set elements beyond what
  `sorted(...)` pins down.  `list(set(xs))` is modelled as `xs.dedup`
  (content-faithful; the order of the result is unspecified in Python).
* Python `sorted(xs, key=...)` is modelled by `List.insertionSort` with the
  key-lifted relation; any order-consistent result is faithful because the
  input order (set iteration) is itself unspecified.
* Truthiness tests (`if self.alias:`, `if items:`, `if self.docstring:`,
  `if not params:`) are modelled exactly: `None`, `""` and `[]` are falsy.
* The mutable node tree plus context-manager stack of `CodeBuilder` is
  modelled as a zipper: open scopes live on a stack of frames holding their
  accumulated children; closing a scope builds the node and appends it to
  the parent.  Mutation in the Python code only ever targets the top-most
  open node, so this is observationally equivalent.
* Python exceptions are modelled by statements returning
  `CodeBuilder × Option PyErr`; a `with` block's `__exit__` runs even when
  the body raises, which the `scoped` case of `execStmt` reproduces.
-/

namespace CodeCraft

/-! ### String helpers (Python `str` operations used by the sources) -/

/-- The ASCII whitespace characters recognised by Python's `str.strip()`. -/
def isPySpace (c : Char) : Bool :=
  c == ' ' || c == '\t' || c == '\n' || c == '\r' || c == '\x0b' || c == '\x0c'

/-- `s.strip()` is empty iff every character is whitespace; Python's
`if not self.code.strip():` test. -/
def isAllSpace (s : String) : Bool := s.data.all isPySpace

/-- Python `needle in hay` (substring containment) on character lists. -/
def isSubChars (needle : List Char) : List Char → Bool
  | [] => needle.isEmpty
  | c :: rest => needle.isPrefixOf (c :: rest) || isSubChars needle rest

/-- Python `needle in hay` for strings. -/
def pyIn (needle hay : String) : Bool := isSubChars needle.data hay.data

/-- Python `s.split("\n")` on character lists (always non-empty result). -/
def splitNlChars : List Char → List (List Char)
  | [] => [[]]
  | c :: rest =>
    let r := splitNlChars rest
    if c == '\n' then [] :: r
    else
      match r with
      | [] => [[c]]
      | h :: t => (c :: h) :: t

/-- Python `s.split("\n")`. -/
def splitNl (s : String) : List String := (splitNlChars s.data).map String.mk

/-- Python `"\n" in s`. -/
def hasNl (s : String) : Bool := s.data.contains '\n'

/-- `indent_char * (indent_size * level)`: the indentation string used
throughout `node.py` and the element renderers. -/
def mkIndent (size lvl : Nat) (ch : Char) : String :=
  String.mk (List.replicate (size * lvl) ch)

/-- Python `s.strip()` (used only to recognise placeholder lines). -/
def pyStrip (s : String) : String :=
  String.mk (((s.data.dropWhile isPySpace).reverse.dropWhile isPySpace).reverse)

/-! ### `elements/imports.py` -/

/-- `ImportNode`: a plain `import x` / `import x as y` statement.
`__eq__` and `__hash__` key on `(module, alias)`, which coincides with
structural equality of this structure. -/
structure ImportNode where
  module : String
  al : Option String
deriving DecidableEq

/-- `ImportNode.render`: `import m` or `import m as a`; the `if self.alias:`
test is truthiness, so an empty-string alias renders as a bare import. -/
def ImportNode.render (n : ImportNode) : String :=
  match n.al with
  | some a => if a = "" then "import " ++ n.module else "import " ++ n.module ++ " as " ++ a
  | none => "import " ++ n.module

/-- `FromImportNode`: a `from x import y, z` statement. -/
structure FromImportNode where
  module : String
  items : List String
deriving DecidableEq

/-- `FromImportNode.render`: `from m import i1, i2, ...` with the items in
the order stored on the node (the source applies no sorting here). -/
def FromImportNode.render (n : FromImportNode) : String :=
  "from " ++ n.module ++ " import " ++ String.intercalate ", " n.items

/-- `FromImportNode.__eq__`: same module and the same *set* of items. -/
def FromImportNode.pyEq (a b : FromImportNode) : Bool :=
  a.module == b.module
    && a.items.all (fun x => b.items.contains x)
    && b.items.all (fun x => a.items.contains x)

/-- `ImportManager`: the two deduplicating collections (`Set` in Python,
duplicate-free lists in insertion order here). -/
structure ImportManager where
  imports : List ImportNode
  from_imports : List FromImportNode
deriving DecidableEq

/-- `ImportManager()` constructor: both collections empty. -/
def ImportManager.empty : ImportManager := ⟨[], []⟩

/-- `ImportManager.add_import`: `self._imports.add(ImportNode(module, alias))`;
a Python `set.add` is a no-op when an equal element is present. -/
def ImportManager.add_import (mgr : ImportManager) (module : String)
    (al : Option String) : ImportManager :=
  let node : ImportNode := ⟨module, al⟩
  if node ∈ mgr.imports then mgr else { mgr with imports := mgr.imports ++ [node] }

/-- `ImportManager.add_from_import`: look for an existing entry with the same
module; if found, remove it and add a node with the merged, deduplicated
item set (`list(set(existing.items + items))`); otherwise add a fresh node.
Both insertions go through `set.add` semantics (no-op on an equal element,
equality per `FromImportNode.__eq__`). -/
def ImportManager.add_from_import (mgr : ImportManager) (module : String)
    (items : List String) : ImportManager :=
  match mgr.from_imports.find? (fun n => n.module == module) with
  | some existing =>
    let merged : FromImportNode := ⟨module, (existing.items ++ items).dedup⟩
    let removed := mgr.from_imports.eraseP (fun n => n.pyEq existing)
    if removed.any (fun n => n.pyEq merged) then { mgr with from_imports := removed }
    else { mgr with from_imports := removed ++ [merged] }
  | none =>
    let node : FromImportNode := ⟨module, items⟩
    if mgr.from_imports.any (fun n => n.pyEq node) then mgr
    else { mgr with from_imports := mgr.from_imports ++ [node] }

/-- `ImportManager.clear`. -/
def ImportManager.clear (_ : ImportManager) : ImportManager := ⟨[], []⟩

/-- The sort key of `get_import_nodes`: lexicographic order on the module
name (Python compares strings by code point). -/
def ImportNode.leModule (a b : ImportNode) : Prop := a.module.data ≤ b.module.data

instance : DecidableRel ImportNode.leModule :=
  fun a b => inferInstanceAs (Decidable (a.module.data ≤ b.module.data))

instance : IsTotal ImportNode ImportNode.leModule :=
  ⟨fun a b => le_total a.module.data b.module.data⟩

instance : IsTrans ImportNode ImportNode.leModule :=
  ⟨fun _ _ _ => le_trans⟩

/-- The same sort key for from-import nodes. -/
def FromImportNode.leModule (a b : FromImportNode) : Prop := a.module.data ≤ b.module.data

instance : DecidableRel FromImportNode.leModule :=
  fun a b => inferInstanceAs (Decidable (a.module.data ≤ b.module.data))

instance : IsTotal FromImportNode FromImportNode.leModule :=
  ⟨fun a b => le_total a.module.data b.module.data⟩

instance : IsTrans FromImportNode FromImportNode.leModule :=
  ⟨fun _ _ _ => le_trans⟩

/-- The heterogeneous node list returned by `get_import_nodes`. -/
inductive ImpEntry where
  | plain (n : ImportNode)
  | fromImp (n : FromImportNode)
deriving DecidableEq

/-- Rendering either kind of import entry. -/
def ImpEntry.render : ImpEntry → String
  | .plain n => n.render
  | .fromImp n => n.render

/-- `ImportManager.get_import_nodes`: regular imports sorted by module name,
then from-imports sorted by module name. -/
def ImportManager.get_import_nodes (mgr : ImportManager) : List ImpEntry :=
  (List.insertionSort ImportNode.leModule mgr.imports).map ImpEntry.plain
    ++ (List.insertionSort FromImportNode.leModule mgr.from_imports).map ImpEntry.fromImp

/-- The emission of the import table: each node of `get_import_nodes`
rendered, in order (this is the import-rendering loop of
`CodeBuilder.generate`; the spec calls it `emit()`). -/
def ImportManager.emit (mgr : ImportManager) : List String :=
  mgr.get_import_nodes.map ImpEntry.render

/-- The two ways client code can write to the import table
(`add_import` / `add_from_import` called with the context stack empty). -/
inductive MgrOp where
  | addI (module : String) (al : Option String)
  | addF (module : String) (items : List String)

/-- Run a sequence of import-table registrations. -/
def runMgrOps (ops : List MgrOp) (mgr : ImportManager) : ImportManager :=
  match ops with
  | [] => mgr
  | .addI m a :: rest => runMgrOps rest (mgr.add_import m a)
  | .addF m its :: rest => runMgrOps rest (mgr.add_from_import m its)

/-! ### `core/node.py`, `elements/*.py`: the IR node tree -/

/-- `AttributeNode` (`class_element.py`): a typed class attribute. -/
structure AttributeNode where
  name : String
  type_hint : String
  default : Option String
  indent_level : Nat
deriving DecidableEq

/-- `AttributeNode.render`; `if self.default:` is a truthiness test, so an
empty-string default renders as a bare annotation. -/
def AttributeNode.render (size : Nat) (ch : Char) (a : AttributeNode) : String :=
  let ind := mkIndent size a.indent_level ch
  match a.default with
  | some d =>
    if d = "" then ind ++ a.name ++ ": " ++ a.type_hint
    else ind ++ a.name ++ ": " ++ a.type_hint ++ " = " ++ d
  | none => ind ++ a.name ++ ": " ++ a.type_hint

/-- The header payloads of the control-flow nodes in `control_flow.py`. -/
inductive FlowHeader where
  | ifH (cond : String)
  | elifH (cond : String)
  | elseH
  | forH (target iterable : String)
  | whileH (cond : String)
  | tryH
  | exceptH (exc : Option String) (asName : Option String)
  | finallyH
  | withH (expr : String) (asName : Option String)
deriving DecidableEq

/-- The header line of a control-flow node (the first `lines.append` of each
`render` in `control_flow.py`); `if self.exception:` and `if self.as_:` are
truthiness tests. -/
def FlowHeader.headerText : FlowHeader → String
  | .ifH c => "if " ++ c ++ ":"
  | .elifH c => "elif " ++ c ++ ":"
  | .elseH => "else:"
  | .forH t i => "for " ++ t ++ " in " ++ i ++ ":"
  | .whileH c => "while " ++ c ++ ":"
  | .tryH => "try:"
  | .exceptH exc asName =>
    match exc with
    | some e =>
      if e = "" then "except:"
      else
        match asName with
        | some a => if a = "" then "except " ++ e ++ ":" else "except " ++ e ++ " as " ++ a ++ ":"
        | none => "except " ++ e ++ ":"
    | none => "except:"
  | .finallyH => "finally:"
  | .withH expr asName =>
    match asName with
    | some a => if a = "" then "with " ++ expr ++ ":" else "with " ++ expr ++ " as " ++ a ++ ":"
    | none => "with " ++ expr ++ ":"

/-- The closed variant set of IR nodes (`node.py` plus the element files).
`functionN` covers both `FunctionNode` and `MethodNode`: a `MethodNode` only
differs in its constructor (parameter massaging, modelled in
`method_params`), while `render` is inherited unchanged. -/
inductive PNode where
  | rawLine (code : String) (lvl : Nat)
  | blankLine
  | commentN (text : String) (lvl : Nat)
  | docstringN (text : String) (lvl : Nat)
  | flowN (h : FlowHeader) (lvl : Nat) (children : List PNode)
  | classN (name : String) (bases : List String) (decorators : List String)
      (lvl : Nat) (doc : Option String) (attrs : List AttributeNode)
      (children : List PNode)
  | functionN (name : String) (params : List String) (returns : Option String)
      (decorators : List String) (async_ : Bool) (lvl : Nat)
      (doc : Option String) (children : List PNode)

/-- Python truthiness of an optional string (`if self.docstring:`). -/
def docTruthy : Option String → Bool
  | some d => !(d == "")
  | none => false

/-- `decorators.py`: `render_decorators`, one line per decorator at the
declaration's indent level; a missing `@` marker is prepended. -/
def render_decorators (decorators : List String) (lvl size : Nat) (ch : Char) :
    List String :=
  decorators.map (fun d =>
    mkIndent size lvl ch ++
      (match d.data with
       | '@' :: _ => d
       | _ => "@" ++ d))

/-- `helpers.py` `format_bases`: `(B1, B2)` or empty. -/
def format_bases (bases : List String) : String :=
  match bases with
  | [] => ""
  | _ => "(" ++ String.intercalate ", " bases ++ ")"

/-- `helpers.py` `format_params`. -/
def format_params (params : List String) : String := String.intercalate ", " params

/-- `helpers.py` `format_return_type` (truthiness: empty string means none). -/
def format_return_type : Option String → String
  | some r => if r = "" then "" else " -> " ++ r
  | none => ""

/-- The docstring lines emitted inside `ClassNode.render` and
`FunctionNode.render` (guarded by `if self.docstring:`, then single-line or
multi-line depending on `"\n" in self.docstring`). -/
def bodyDocLines (bodyInd : String) (doc : Option String) : List String :=
  match doc with
  | some d =>
    if d = "" then []
    else if hasNl d then
      (bodyInd ++ "\"\"\"")
        :: (splitNl d).map (fun l => bodyInd ++ l)
        ++ [bodyInd ++ "\"\"\""]
    else [bodyInd ++ "\"\"\"" ++ d ++ "\"\"\""]
  | none => []

mutual

/-- `Node.render` for every variant, translated clause by clause from the
Python sources.  Returns the node's full text, lines joined by `"\n"`. -/
def PNode.render (size : Nat) (ch : Char) : PNode → String
  | .rawLine code lvl =>
    if isAllSpace code then "" else mkIndent size lvl ch ++ code
  | .blankLine => ""
  | .commentN text lvl => mkIndent size lvl ch ++ "# " ++ text
  | .docstringN text lvl =>
    let ind := mkIndent size lvl ch
    if hasNl text then
      String.intercalate "\n"
        ((ind ++ "\"\"\"") :: (splitNl text).map (fun l => ind ++ l) ++ [ind ++ "\"\"\""])
    else ind ++ "\"\"\"" ++ text ++ "\"\"\""
  | .flowN h lvl children =>
    let header := mkIndent size lvl ch ++ h.headerText
    let body := PNode.renderList size ch children
    let passPart :=
      match children with
      | [] => [mkIndent size (lvl + 1) ch ++ "pass"]
      | _ :: _ => []
    String.intercalate "\n" (header :: body ++ passPart)
  | .classN name bases decorators lvl doc attrs children =>
    let ind := mkIndent size lvl ch
    let bodyInd := mkIndent size (lvl + 1) ch
    let decLines := render_decorators decorators lvl size ch
    let header := ind ++ "class " ++ name ++ format_bases bases ++ ":"
    let docPart := bodyDocLines bodyInd doc
    let attrLines := attrs.map (AttributeNode.render size ch)
    let body := PNode.renderList size ch children
    let passPart :=
      if !docTruthy doc && attrs.isEmpty && children.isEmpty then [bodyInd ++ "pass"]
      else []
    String.intercalate "\n" (decLines ++ header :: docPart ++ attrLines ++ body ++ passPart)
  | .functionN name params returns decorators async_ lvl doc children =>
    let ind := mkIndent size lvl ch
    let bodyInd := mkIndent size (lvl + 1) ch
    let decLines := render_decorators decorators lvl size ch
    let asyncPart := if async_ then "async " else ""
    let header :=
      ind ++ asyncPart ++ "def " ++ name ++ "(" ++ format_params params ++ ")"
        ++ format_return_type returns ++ ":"
    let docPart := bodyDocLines bodyInd doc
    -- `FunctionNode.render` filters its children with `if rendered:`
    -- (truthiness), dropping empty strings, unlike every other composite.
    let body := (PNode.renderList size ch children).filter (fun s => !(s == ""))
    let passPart :=
      if !docTruthy doc && children.isEmpty then [bodyInd ++ "pass"]
      else []
    String.intercalate "\n" (decLines ++ header :: docPart ++ body ++ passPart)

/-- The `for child in self.children: ... child.render(...)` loops (none of
the composite renderers can see a Python `None`, so every rendered child is
kept by the `is not None` guards). -/
def PNode.renderList (size : Nat) (ch : Char) : List PNode → List String
  | [] => []
  | n :: ns => PNode.render size ch n :: PNode.renderList size ch ns

end

/-! ### `utils/indentation.py` -/

/-- `IndentationManager`: size, fill character and the mutable level. -/
structure IndentationManager where
  size : Nat
  char : Char
  level : Nat
deriving DecidableEq

/-- `increase()`: `level += 1`, no upper bound. -/
def IndentationManager.increase (m : IndentationManager) : IndentationManager :=
  { m with level := m.level + 1 }

/-- `decrease()`: `level = max(0, level - 1)` — `Nat` subtraction models the
clamp at zero exactly. -/
def IndentationManager.decrease (m : IndentationManager) : IndentationManager :=
  { m with level := m.level - 1 }

/-! ### `elements/function_element.py`: `MethodNode.__init__` -/

/-- The parameter massaging of `MethodNode.__init__`:
`if not params: params = ["self"]` (truthiness, so `None` and `[]` both
count), `elif "self" not in params[0] and "cls" not in params[0]:
params = ["self"] + params` — note the *substring* containment test. -/
def method_params : Option (List String) → List String
  | none => ["self"]
  | some [] => ["self"]
  | some (p :: ps) =>
    if pyIn "self" p || pyIn "cls" p then p :: ps else "self" :: p :: ps

/-! ### `core/context.py` and `core/builder.py`: the scoped builder -/

/-- One open scope: the node under construction together with the children
accumulated so far.  `classFrame` mirrors `ClassContext` (whose `ClassNode`
also accumulates attributes and a docstring), `functionFrame` mirrors
`FunctionContext` (docstring), `flowFrame` mirrors `ControlFlowContext`. -/
inductive Frame where
  | classFrame (name : String) (bases : List String) (decorators : List String)
      (lvl : Nat) (doc : Option String) (attrs : List AttributeNode)
      (children : List PNode)
  | functionFrame (name : String) (params : List String) (returns : Option String)
      (decorators : List String) (async_ : Bool) (lvl : Nat)
      (doc : Option String) (children : List PNode)
  | flowFrame (h : FlowHeader) (lvl : Nat) (children : List PNode)

/-- Whether a frame is a `ClassContext` (`isinstance(current, ClassContext)`). -/
def Frame.isClassFrame : Frame → Bool
  | .classFrame .. => true
  | _ => false

/-- Append a node to the frame's children (the `add_child` call reached via
`_add_node` when this frame is the innermost open scope). -/
def Frame.addChild (f : Frame) (n : PNode) : Frame :=
  match f with
  | .classFrame name bases decs lvl doc attrs children =>
    .classFrame name bases decs lvl doc attrs (children ++ [n])
  | .functionFrame name params returns decs async_ lvl doc children =>
    .functionFrame name params returns decs async_ lvl doc (children ++ [n])
  | .flowFrame h lvl children => .flowFrame h lvl (children ++ [n])

/-- Close a finished scope into the node it was building. -/
def Frame.toNode : Frame → PNode
  | .classFrame name bases decs lvl doc attrs children =>
    .classN name bases decs lvl doc attrs children
  | .functionFrame name params returns decs async_ lvl doc children =>
    .functionN name params returns decs async_ lvl doc children
  | .flowFrame h lvl children => .flowN h lvl children

/-- The builder's state: root nodes, the indentation engine, the import
table and the context stack (innermost scope first). -/
structure CodeBuilder where
  nodes : List PNode
  indent_manager : IndentationManager
  indent_size : Nat
  indent_char : Char
  import_manager : ImportManager
  context_stack : List Frame

/-- `CodeBuilder(indent_size, indent_char)`. -/
def CodeBuilder.init (size : Nat) (ch : Char) : CodeBuilder :=
  { nodes := []
    indent_manager := ⟨size, ch, 0⟩
    indent_size := size
    indent_char := ch
    import_manager := ImportManager.empty
    context_stack := [] }

/-- `_add_node`: route a node to the innermost open scope, or to the root
sequence when the stack is empty. -/
def CodeBuilder.add_node (b : CodeBuilder) (n : PNode) : CodeBuilder :=
  match b.context_stack with
  | [] => { b with nodes := b.nodes ++ [n] }
  | f :: rest => { b with context_stack := f.addChild n :: rest }

/-- The block-opening operations, with the arguments of each builder call
(`class_`, `function`, `method`, `if_`, ..., `with_`).  Optional arguments
default to `none` / `[]` exactly as in the Python signatures. -/
inductive ScopeKind where
  | classScope (name : String) (bases : List String) (decorators : List String)
  | functionScope (name : String) (params : Option (List String))
      (returns : Option String) (decorators : List String) (async_ : Bool)
      (isMethod : Bool)
  | flowScope (h : FlowHeader)

/-- Scope entry: construct the node at the current indentation level, add it
to the enclosing scope, push the context, increase the indentation — the
`__enter__` bodies in `context.py`.  (Adding the node to the parent only
when the scope *closes* is the zipper view; the node is mutated exclusively
through this frame while open, so the placement is identical.) -/
def CodeBuilder.enterScope (b : CodeBuilder) (k : ScopeKind) : CodeBuilder :=
  let lvl := b.indent_manager.level
  let frame :=
    match k with
    | .classScope name bases decs => Frame.classFrame name bases decs lvl none [] []
    | .functionScope name params returns decs async_ isMethod =>
      let ps := if isMethod then method_params params else params.getD []
      Frame.functionFrame name ps returns decs async_ lvl none []
    | .flowScope h => Frame.flowFrame h lvl []
  { b with context_stack := frame :: b.context_stack
           indent_manager := b.indent_manager.increase }

/-- Scope exit (`__exit__`): decrease the indentation, pop the context, and
deliver the finished node to its parent (or the root sequence).
`_pop_context` is a no-op on an empty stack, and `decrease` clamps at 0. -/
def CodeBuilder.exitScope (b : CodeBuilder) : CodeBuilder :=
  match b.context_stack with
  | [] => { b with indent_manager := b.indent_manager.decrease }
  | f :: rest =>
    CodeBuilder.add_node
      { b with context_stack := rest, indent_manager := b.indent_manager.decrease }
      f.toNode

/-- `line(code)`. -/
def CodeBuilder.line (b : CodeBuilder) (code : String) : CodeBuilder :=
  b.add_node (.rawLine code b.indent_manager.level)

/-- `return_(value)`. -/
def CodeBuilder.return_ (b : CodeBuilder) (value : String) : CodeBuilder :=
  b.add_node (.rawLine ("return " ++ value) b.indent_manager.level)

/-- `raw(code)`: unindented raw line. -/
def CodeBuilder.raw (b : CodeBuilder) (code : String) : CodeBuilder :=
  b.add_node (.rawLine code 0)

/-- `comment(text)`. -/
def CodeBuilder.comment (b : CodeBuilder) (text : String) : CodeBuilder :=
  b.add_node (.commentN text b.indent_manager.level)

/-- `blank_line()`. -/
def CodeBuilder.blank_line (b : CodeBuilder) : CodeBuilder :=
  b.add_node .blankLine

/-- `docstring(text)`: set the docstring of the innermost class/function
scope (those contexts expose a `docstring` method), otherwise append a
standalone docstring node. -/
def CodeBuilder.docstring (b : CodeBuilder) (text : String) : CodeBuilder :=
  match b.context_stack with
  | .classFrame name bases decs lvl _ attrs children :: rest =>
    { b with context_stack := .classFrame name bases decs lvl (some text) attrs children :: rest }
  | .functionFrame name params returns decs async_ lvl _ children :: rest =>
    { b with context_stack := .functionFrame name params returns decs async_ lvl (some text) children :: rest }
  | _ => b.add_node (.docstringN text b.indent_manager.level)

/-- The error taxonomy: `RuntimeError` from `attr()` outside a class scope
(the spec's `InvalidContext`), and an exception raised by caller code inside
a block body. -/
inductive PyErr where
  | invalidContext
  | userRaise
deriving DecidableEq

/-- `attr(name, type_, default)`: valid only when the innermost open scope
is a `ClassContext`; appends an `AttributeNode` at the class body level
(`self.indent_level + 1`), otherwise raises without touching any state. -/
def CodeBuilder.attr (b : CodeBuilder) (name type_ : String)
    (default : Option String) : CodeBuilder × Option PyErr :=
  match b.context_stack with
  | .classFrame cname bases decs lvl doc attrs children :: rest =>
    ({ b with context_stack :=
        (Frame.classFrame cname bases decs lvl doc
          (attrs ++ [⟨name, type_, default, lvl + 1⟩]) children) :: rest }, none)
  | _ => (b, some .invalidContext)

/-- `add_import(module, items)`: inline raw line when a scope is open
(`if items:` is a truthiness test), deferred registration otherwise. -/
def CodeBuilder.add_import (b : CodeBuilder) (module : String)
    (items : Option (List String)) : CodeBuilder :=
  match b.context_stack with
  | _ :: _ =>
    match items with
    | some (i :: is) =>
      b.line ("from " ++ module ++ " import " ++ String.intercalate ", " (i :: is))
    | _ => b.line ("import " ++ module)
  | [] =>
    match items with
    | some (i :: is) =>
      { b with import_manager := b.import_manager.add_from_import module (i :: is) }
    | _ => { b with import_manager := b.import_manager.add_import module none }

/-- `add_from_import(module, items)`: inline raw line when a scope is open,
deferred registration otherwise. -/
def CodeBuilder.add_from_import (b : CodeBuilder) (module : String)
    (items : List String) : CodeBuilder :=
  match b.context_stack with
  | _ :: _ => b.line ("from " ++ module ++ " import " ++ String.intercalate ", " items)
  | [] => { b with import_manager := b.import_manager.add_from_import module items }

/-- `generate()` without the optional external formatter: import lines, the
two-blank-line separator when both sections are non-empty, then the root
nodes in insertion order, joined with single newlines. -/
def CodeBuilder.generate (b : CodeBuilder) : String :=
  let import_nodes := b.import_manager.get_import_nodes
  let importLines := import_nodes.map ImpEntry.render
  let sep : List String :=
    if !import_nodes.isEmpty && !b.nodes.isEmpty then ["", ""] else []
  let bodyLines := b.nodes.map (PNode.render b.indent_size b.indent_char)
  String.intercalate "\n" (importLines ++ sep ++ bodyLines)

/-! ### Builder programs

A client of the builder is a strictly nested tree of `with` blocks around
leaf calls (the context-manager protocol enforces stack discipline), so a
session is a list of statements; `scoped` wraps a block body, and `raiseSt`
models caller code raising an arbitrary exception inside a body. -/

inductive Stmt where
  | lineSt (code : String)
  | returnSt (value : String)
  | rawSt (code : String)
  | commentSt (text : String)
  | docstringSt (text : String)
  | blankLineSt
  | attrSt (name type_ : String) (default : Option String)
  | addImportSt (module : String) (items : Option (List String))
  | addFromImportSt (module : String) (items : List String)
  | raiseSt
  | scopedSt (k : ScopeKind) (body : List Stmt)

/-- Every statement other than a `scoped` block. -/
def Stmt.isLeaf : Stmt → Bool
  | .scopedSt .. => false
  | _ => true

mutual

/-- Execute one statement.  An exception aborts the remainder of the current
body, but a `with` block's `__exit__` (scope cleanup) runs regardless and
the exception is re-raised — the `scoped` case applies `exitScope` to
whatever state the body reached, whether or not it raised. -/
def execStmt : Stmt → CodeBuilder → CodeBuilder × Option PyErr
  | .lineSt code, b => (b.line code, none)
  | .returnSt v, b => (b.return_ v, none)
  | .rawSt code, b => (b.raw code, none)
  | .commentSt t, b => (b.comment t, none)
  | .docstringSt t, b => (b.docstring t, none)
  | .blankLineSt, b => (b.blank_line, none)
  | .attrSt n t d, b => b.attr n t d
  | .addImportSt m its, b => (b.add_import m its, none)
  | .addFromImportSt m its, b => (b.add_from_import m its, none)
  | .raiseSt, b => (b, some .userRaise)
  | .scopedSt k body, b =>
    let b1 := b.enterScope k
    let res := execStmts body b1
    (res.1.exitScope, res.2)

/-- Execute a body: stop at the first raised exception. -/
def execStmts : List Stmt → CodeBuilder → CodeBuilder × Option PyErr
  | [], b => (b, none)
  | s :: rest, b =>
    match execStmt s b with
    | (b', none) => execStmts rest b'
    | (b', some e) => (b', some e)

end

/-! ### Helper lemmas: level / stack-depth bookkeeping -/

theorem add_node_level (b : CodeBuilder) (n : PNode) :
    (b.add_node n).indent_manager.level = b.indent_manager.level := by
  unfold CodeBuilder.add_node
  split <;> rfl

theorem add_node_stack_length (b : CodeBuilder) (n : PNode) :
    (b.add_node n).context_stack.length = b.context_stack.length := by
  unfold CodeBuilder.add_node
  split
  · rfl
  · simp_all

theorem enterScope_level (b : CodeBuilder) (k : ScopeKind) :
    (b.enterScope k).indent_manager.level = b.indent_manager.level + 1 := by
  unfold CodeBuilder.enterScope
  rfl

theorem enterScope_stack (b : CodeBuilder) (k : ScopeKind) :
    (b.enterScope k).context_stack.length = b.context_stack.length + 1 := by
  unfold CodeBuilder.enterScope
  simp

theorem exitScope_level (b : CodeBuilder) :
    (b.exitScope).indent_manager.level = b.indent_manager.level - 1 := by
  unfold CodeBuilder.exitScope
  split
  · rfl
  · rw [add_node_level]
    rfl

theorem exitScope_stack (b : CodeBuilder) :
    (b.exitScope).context_stack.length = b.context_stack.length - 1 := by
  unfold CodeBuilder.exitScope
  split
  · simp_all
  · rw [add_node_stack_length]
    simp_all

theorem docstring_level (b : CodeBuilder) (t : String) :
    (b.docstring t).indent_manager.level = b.indent_manager.level := by
  unfold CodeBuilder.docstring
  split
  · rfl
  · rfl
  · rw [add_node_level]

theorem docstring_stack (b : CodeBuilder) (t : String) :
    (b.docstring t).context_stack.length = b.context_stack.length := by
  unfold CodeBuilder.docstring
  split
  · simp_all
  · simp_all
  · rw [add_node_stack_length]

theorem attr_level (b : CodeBuilder) (n t : String) (d : Option String) :
    (b.attr n t d).1.indent_manager.level = b.indent_manager.level := by
  unfold CodeBuilder.attr
  split <;> rfl

theorem attr_stack (b : CodeBuilder) (n t : String) (d : Option String) :
    (b.attr n t d).1.context_stack.length = b.context_stack.length := by
  unfold CodeBuilder.attr
  split <;> simp_all

theorem add_import_level (b : CodeBuilder) (m : String) (its : Option (List String)) :
    (b.add_import m its).indent_manager.level = b.indent_manager.level := by
  unfold CodeBuilder.add_import CodeBuilder.line
  split <;> split <;> first | rfl | rw [add_node_level]

theorem add_import_stack (b : CodeBuilder) (m : String) (its : Option (List String)) :
    (b.add_import m its).context_stack.length = b.context_stack.length := by
  unfold CodeBuilder.add_import CodeBuilder.line
  split <;> split <;> first | rfl | rw [add_node_stack_length]

theorem add_from_import_level (b : CodeBuilder) (m : String) (its : List String) :
    (b.add_from_import m its).indent_manager.level = b.indent_manager.level := by
  unfold CodeBuilder.add_from_import CodeBuilder.line
  split <;> first | rfl | rw [add_node_level]

theorem add_from_import_stack (b : CodeBuilder) (m : String) (its : List String) :
    (b.add_from_import m its).context_stack.length = b.context_stack.length := by
  unfold CodeBuilder.add_from_import CodeBuilder.line
  split <;> first | rfl | rw [add_node_stack_length]

mutual

/-- Every statement — leaf, raising, or a whole scoped block — leaves the
indentation level and the context-stack depth exactly where it found them. -/
theorem execStmt_balance (s : Stmt) (b : CodeBuilder) :
    (execStmt s b).1.indent_manager.level = b.indent_manager.level ∧
    (execStmt s b).1.context_stack.length = b.context_stack.length := by
  cases s with
  | lineSt code =>
    exact ⟨add_node_level .., add_node_stack_length ..⟩
  | returnSt v =>
    exact ⟨add_node_level .., add_node_stack_length ..⟩
  | rawSt code =>
    exact ⟨add_node_level .., add_node_stack_length ..⟩
  | commentSt t =>
    exact ⟨add_node_level .., add_node_stack_length ..⟩
  | docstringSt t =>
    exact ⟨docstring_level .., docstring_stack ..⟩
  | blankLineSt =>
    exact ⟨add_node_level .., add_node_stack_length ..⟩
  | attrSt n t d =>
    exact ⟨attr_level .., attr_stack ..⟩
  | addImportSt m its =>
    exact ⟨add_import_level .., add_import_stack ..⟩
  | addFromImportSt m its =>
    exact ⟨add_from_import_level .., add_from_import_stack ..⟩
  | raiseSt =>
    exact ⟨rfl, rfl⟩
  | scopedSt k body =>
    have hbody := execStmts_balance body (b.enterScope k)
    refine ⟨?_, ?_⟩
    · show (execStmts body (b.enterScope k)).1.exitScope.indent_manager.level = _
      rw [exitScope_level, hbody.1, enterScope_level]
      omega
    · show (execStmts body (b.enterScope k)).1.exitScope.context_stack.length = _
      rw [exitScope_stack, hbody.2, enterScope_stack]
      omega

theorem execStmts_balance (l : List Stmt) (b : CodeBuilder) :
    (execStmts l b).1.indent_manager.level = b.indent_manager.level ∧
    (execStmts l b).1.context_stack.length = b.context_stack.length := by
  cases l with
  | nil => exact ⟨rfl, rfl⟩
  | cons s rest =>
    have hs := execStmt_balance s b
    rcases hres : execStmt s b with ⟨b', e⟩
    rw [hres] at hs
    cases e with
    | none =>
      have hrest := execStmts_balance rest b'
      simp only [execStmts, hres]
      exact ⟨hrest.1.trans hs.1, hrest.2.trans hs.2⟩
    | some err =>
      simp only [execStmts, hres]
      exact hs

end

/-! ### Claim C2 -/

/-- C2: for every scoped block-opening operation (class, function, method,
if, elif, else, for, while, try, except, finally, with — all values of
`ScopeKind`), if the block's body raises an exception, then after the scope
exits the indentation level and the context-stack depth both equal their
values immediately before the block was entered. -/
theorem c2_scope_exception_safe (k : ScopeKind) (body : List Stmt) (b : CodeBuilder)
    (_hraises : (execStmts body (b.enterScope k)).2.isSome = true) :
    (execStmt (Stmt.scopedSt k body) b).1.indent_manager.level = b.indent_manager.level ∧
    (execStmt (Stmt.scopedSt k body) b).1.context_stack.length = b.context_stack.length :=
  execStmt_balance (Stmt.scopedSt k body) b

/-- Witness for C2: an `if_("x")` block whose body raises, entered from a
fresh builder; the hypothesis and the conclusion are checked concretely. -/
theorem c2_scope_exception_safe_witness :
    (execStmts [Stmt.raiseSt] ((CodeBuilder.init 4 ' ').enterScope
        (.flowScope (.ifH "x")))).2.isSome = true ∧
    (execStmt (Stmt.scopedSt (.flowScope (.ifH "x")) [Stmt.raiseSt])
        (CodeBuilder.init 4 ' ')).1.indent_manager.level
      = (CodeBuilder.init 4 ' ').indent_manager.level ∧
    (execStmt (Stmt.scopedSt (.flowScope (.ifH "x")) [Stmt.raiseSt])
        (CodeBuilder.init 4 ' ')).1.context_stack.length
      = (CodeBuilder.init 4 ' ').context_stack.length :=
  ⟨by decide,
   c2_scope_exception_safe (.flowScope (.ifH "x")) [Stmt.raiseSt]
     (CodeBuilder.init 4 ' ') (by decide)⟩

/-! ### Claim C3 -/

/-- C3: `attr(name, type_, default)` raises the invalid-context error and
leaves the whole builder state unchanged whenever the innermost open scope
is not a class scope (including an empty stack); when the innermost open
scope is a class scope, it succeeds and appends the attribute to that
class. -/
theorem c3_attr_requires_class (b : CodeBuilder) (n t : String) (d : Option String) :
    ((b.context_stack.head?.all (fun f => !f.isClassFrame)) = true →
      b.attr n t d = (b, some PyErr.invalidContext)) ∧
    (∀ cname bases decs lvl doc attrs children rest,
      b.context_stack = Frame.classFrame cname bases decs lvl doc attrs children :: rest →
      b.attr n t d =
        ({ b with context_stack :=
            (Frame.classFrame cname bases decs lvl doc
              (attrs ++ [⟨n, t, d, lvl + 1⟩]) children) :: rest }, none)) := by
  constructor
  · intro hnot
    unfold CodeBuilder.attr
    split
    · rename_i cname bases decs lvl doc attrs children rest heq
      rw [heq] at hnot
      simp [Frame.isClassFrame] at hnot
    · rfl
  · intro cname bases decs lvl doc attrs children rest heq
    unfold CodeBuilder.attr
    split
    · rename_i cname' bases' decs' lvl' doc' attrs' children' rest' heq'
      rw [heq] at heq'
      cases heq'
      rfl
    · rename_i hne
      exact absurd heq (hne cname bases decs lvl doc attrs children rest)

/-- Witness for C3: both branches exercised concretely — `attr` inside an
open `if_` scope fails and changes nothing, `attr` inside an open class
scope appends the attribute. -/
theorem c3_attr_requires_class_witness :
    (((CodeBuilder.init 4 ' ').enterScope (.flowScope (.ifH "x"))).attr "a" "int" none
      = (((CodeBuilder.init 4 ' ').enterScope (.flowScope (.ifH "x"))), some PyErr.invalidContext)) ∧
    (((CodeBuilder.init 4 ' ').enterScope (.classScope "C" [] [])).attr "a" "int" none
      = ({ (CodeBuilder.init 4 ' ').enterScope (.classScope "C" [] []) with
            context_stack := [Frame.classFrame "C" [] [] 0 none [⟨"a", "int", none, 1⟩] []] }, none)) :=
  ⟨(c3_attr_requires_class ((CodeBuilder.init 4 ' ').enterScope (.flowScope (.ifH "x")))
      "a" "int" none).1 (by decide),
   (c3_attr_requires_class ((CodeBuilder.init 4 ' ').enterScope (.classScope "C" [] []))
      "a" "int" none).2 "C" [] [] 0 none [] [] [] rfl⟩

/-! ### Claim C10 -/

/-- C10: the indentation level moves in lockstep with the context-stack
depth — (i) any completed sequence of operations preserves `level = depth`;
(ii) every scope entry increments both by one; (iii) every scope exit from a
lockstep state with an open scope decrements both by one; (iv) leaf
operations change neither. -/
theorem c10_level_stack_lockstep :
    (∀ (prog : List Stmt) (b : CodeBuilder),
        b.indent_manager.level = b.context_stack.length →
        (execStmts prog b).1.indent_manager.level = (execStmts prog b).1.context_stack.length) ∧
    (∀ (k : ScopeKind) (b : CodeBuilder),
        (b.enterScope k).indent_manager.level = b.indent_manager.level + 1 ∧
        (b.enterScope k).context_stack.length = b.context_stack.length + 1) ∧
    (∀ b : CodeBuilder,
        b.indent_manager.level = b.context_stack.length →
        b.context_stack ≠ [] →
        (b.exitScope).indent_manager.level + 1 = b.indent_manager.level ∧
        (b.exitScope).context_stack.length + 1 = b.context_stack.length) ∧
    (∀ (s : Stmt) (b : CodeBuilder), s.isLeaf = true →
        (execStmt s b).1.indent_manager.level = b.indent_manager.level ∧
        (execStmt s b).1.context_stack.length = b.context_stack.length) := by
  refine ⟨?_, ?_, ?_, ?_⟩
  · intro prog b h
    have hb := execStmts_balance prog b
    rw [hb.1, hb.2, h]
  · intro k b
    exact ⟨enterScope_level b k, enterScope_stack b k⟩
  · intro b h hne
    have hlen : b.context_stack.length ≠ 0 := by
      simpa [List.length_eq_zero] using hne
    rw [exitScope_level, exitScope_stack]
    omega
  · intro s b _
    exact execStmt_balance s b

/-- Witness for C10: the lockstep invariant, an entry, an exit and a leaf
operation checked on concrete builder states. -/
theorem c10_level_stack_lockstep_witness :
    ((execStmts [Stmt.scopedSt (.classScope "C" [] []) [Stmt.lineSt "x = 1"]]
        (CodeBuilder.init 4 ' ')).1.indent_manager.level
      = (execStmts [Stmt.scopedSt (.classScope "C" [] []) [Stmt.lineSt "x = 1"]]
        (CodeBuilder.init 4 ' ')).1.context_stack.length) ∧
    (((CodeBuilder.init 4 ' ').enterScope (.classScope "C" [] [])).indent_manager.level
        = (CodeBuilder.init 4 ' ').indent_manager.level + 1 ∧
     ((CodeBuilder.init 4 ' ').enterScope (.classScope "C" [] [])).context_stack.length
        = (CodeBuilder.init 4 ' ').context_stack.length + 1) ∧
    ((((CodeBuilder.init 4 ' ').enterScope (.classScope "C" [] [])).exitScope.indent_manager.level + 1
        = ((CodeBuilder.init 4 ' ').enterScope (.classScope "C" [] [])).indent_manager.level) ∧
     (((CodeBuilder.init 4 ' ').enterScope (.classScope "C" [] [])).exitScope.context_stack.length + 1
        = ((CodeBuilder.init 4 ' ').enterScope (.classScope "C" [] [])).context_stack.length)) ∧
    ((execStmt (Stmt.lineSt "x = 1") (CodeBuilder.init 4 ' ')).1.indent_manager.level
        = (CodeBuilder.init 4 ' ').indent_manager.level ∧
     (execStmt (Stmt.lineSt "x = 1") (CodeBuilder.init 4 ' ')).1.context_stack.length
        = (CodeBuilder.init 4 ' ').context_stack.length) :=
  ⟨c10_level_stack_lockstep.1 [Stmt.scopedSt (.classScope "C" [] []) [Stmt.lineSt "x = 1"]]
      (CodeBuilder.init 4 ' ') (by decide),
   c10_level_stack_lockstep.2.1 (.classScope "C" [] []) (CodeBuilder.init 4 ' '),
   c10_level_stack_lockstep.2.2.1 ((CodeBuilder.init 4 ' ').enterScope (.classScope "C" [] []))
      (by decide) (by exact List.cons_ne_nil _ _),
   c10_level_stack_lockstep.2.2.2 (Stmt.lineSt "x = 1") (CodeBuilder.init 4 ' ') (by decide)⟩

/-! ### Helper lemmas: the import table -/

theorem add_import_of_mem (mgr : ImportManager) (m : String) (a : Option String)
    (h : (⟨m, a⟩ : ImportNode) ∈ mgr.imports) : mgr.add_import m a = mgr := by
  simp [ImportManager.add_import, h]

theorem add_import_of_not_mem (mgr : ImportManager) (m : String) (a : Option String)
    (h : (⟨m, a⟩ : ImportNode) ∉ mgr.imports) :
    mgr.add_import m a = { mgr with imports := mgr.imports ++ [⟨m, a⟩] } := by
  simp [ImportManager.add_import, h]

theorem mem_add_import (mgr : ImportManager) (m : String) (a : Option String) :
    (⟨m, a⟩ : ImportNode) ∈ (mgr.add_import m a).imports := by
  by_cases h : (⟨m, a⟩ : ImportNode) ∈ mgr.imports
  · rw [add_import_of_mem mgr m a h]
    exact h
  · rw [add_import_of_not_mem mgr m a h]
    simp

theorem add_import_nodup (mgr : ImportManager) (m : String) (a : Option String)
    (h : mgr.imports.Nodup) : (mgr.add_import m a).imports.Nodup := by
  by_cases hmem : (⟨m, a⟩ : ImportNode) ∈ mgr.imports
  · rw [add_import_of_mem mgr m a hmem]
    exact h
  · rw [add_import_of_not_mem mgr m a hmem]
    simp [List.nodup_append, h, hmem]

theorem add_from_import_imports (mgr : ImportManager) (m : String) (its : List String) :
    (mgr.add_from_import m its).imports = mgr.imports := by
  simp only [ImportManager.add_from_import]
  split <;> split <;> rfl

theorem runMgrOps_nodup (ops : List MgrOp) :
    ∀ mgr : ImportManager, mgr.imports.Nodup → (runMgrOps ops mgr).imports.Nodup := by
  induction ops with
  | nil => intro mgr h; exact h
  | cons op rest ih =>
    intro mgr h
    cases op with
    | addI m a => exact ih _ (add_import_nodup mgr m a h)
    | addF m its => exact ih _ (by rw [add_from_import_imports]; exact h)

theorem pyEq_refl (n : FromImportNode) : n.pyEq n = true := by
  simp [FromImportNode.pyEq, List.all_eq_true]

theorem pyEq_false_of_ne_module (a b : FromImportNode) (h : a.module ≠ b.module) :
    a.pyEq b = false := by
  simp [FromImportNode.pyEq, h]

theorem add_from_import_fresh (mgr : ImportManager) (m : String) (its : List String)
    (hfresh : ∀ n ∈ mgr.from_imports, n.module ≠ m) :
    (mgr.add_from_import m its).from_imports = mgr.from_imports ++ [⟨m, its⟩] := by
  unfold ImportManager.add_from_import
  have hfind : mgr.from_imports.find? (fun n => n.module == m) = none := by
    rw [List.find?_eq_none]
    intro n hn
    simpa using hfresh n hn
  rw [hfind]
  have hany : mgr.from_imports.any (fun n => n.pyEq ⟨m, its⟩) = false := by
    rw [List.any_eq_false]
    intro n hn
    simp [pyEq_false_of_ne_module n ⟨m, its⟩ (hfresh n hn)]
  simp [hany]

theorem add_from_import_merge (mgr2 : ImportManager) (m : String)
    (its1 its2 : List String) (l : List FromImportNode)
    (hl : mgr2.from_imports = l ++ [⟨m, its1⟩])
    (hfresh : ∀ n ∈ l, n.module ≠ m) :
    (mgr2.add_from_import m its2).from_imports = l ++ [⟨m, (its1 ++ its2).dedup⟩] := by
  have hfind0 : l.find? (fun n => n.module == m) = none := by
    rw [List.find?_eq_none]
    intro n hn
    simpa using hfresh n hn
  have hfind : (l ++ [(⟨m, its1⟩ : FromImportNode)]).find? (fun n => n.module == m)
      = some ⟨m, its1⟩ := by
    rw [List.find?_append, hfind0]
    simp
  have hany0 : l.any (fun n => n.pyEq ⟨m, its1⟩) = false := by
    rw [List.any_eq_false]
    intro n hn
    simp [pyEq_false_of_ne_module n ⟨m, its1⟩ (hfresh n hn)]
  have herase : (l ++ [(⟨m, its1⟩ : FromImportNode)]).eraseP
      (fun n => n.pyEq ⟨m, its1⟩) = l := by
    rw [List.eraseP_append, hany0]
    simp [List.eraseP_cons, pyEq_refl]
  have hanyM : l.any (fun n => n.pyEq ⟨m, (its1 ++ its2).dedup⟩) = false := by
    rw [List.any_eq_false]
    intro n hn
    simp [pyEq_false_of_ne_module n ⟨m, (its1 ++ its2).dedup⟩ (hfresh n hn)]
  simp only [ImportManager.add_from_import, hl, hfind]
  simp only [herase]
  simp [hanyM]

theorem add_from_import_twice_fresh (mgr : ImportManager) (m : String)
    (items1 items2 : List String)
    (hfresh : ∀ n ∈ mgr.from_imports, n.module ≠ m) :
    ((mgr.add_from_import m items1).add_from_import m items2).from_imports
      = mgr.from_imports ++ [⟨m, (items1 ++ items2).dedup⟩] :=
  add_from_import_merge (mgr.add_from_import m items1) m items1 items2
    mgr.from_imports (add_from_import_fresh mgr m items1 hfresh) hfresh

/-! ### Claim C4 -/

/-- C4: plain-import deduplication — re-adding an already-present
`(module, alias)` pair is a no-op (so any number of repeated adds collapses
to one), and after adding the pair to any reachable import table, the
emission list contains exactly one plain-import node for that pair. -/
theorem c4_plain_import_dedup (ops : List MgrOp) (m : String) (a : Option String) :
    (∀ mgr : ImportManager, (mgr.add_import m a).add_import m a = mgr.add_import m a) ∧
    ((runMgrOps ops ImportManager.empty).add_import m a).get_import_nodes.count
        (ImpEntry.plain ⟨m, a⟩) = 1 := by
  constructor
  · intro mgr
    exact add_import_of_mem (mgr.add_import m a) m a (mem_add_import mgr m a)
  · have hnodup : ((runMgrOps ops ImportManager.empty).add_import m a).imports.Nodup :=
      add_import_nodup _ m a
        (runMgrOps_nodup ops ImportManager.empty (by simp [ImportManager.empty]))
    have hmem := mem_add_import (runMgrOps ops ImportManager.empty) m a
    unfold ImportManager.get_import_nodes
    rw [List.count_append]
    have hinj : Function.Injective ImpEntry.plain := by
      intro x y h
      injection h
    have h1 : ((List.insertionSort ImportNode.leModule
          ((runMgrOps ops ImportManager.empty).add_import m a).imports).map
            ImpEntry.plain).count (ImpEntry.plain ⟨m, a⟩) = 1 := by
      rw [List.count_map_of_injective _ ImpEntry.plain hinj,
        (List.perm_insertionSort ImportNode.leModule _).count_eq]
      exact List.count_eq_one_of_mem hnodup hmem
    have h2 : ((List.insertionSort FromImportNode.leModule
          ((runMgrOps ops ImportManager.empty).add_import m a).from_imports).map
            ImpEntry.fromImp).count (ImpEntry.plain ⟨m, a⟩) = 0 := by
      rw [List.count_eq_zero]
      simp
    rw [h1, h2]

/-! ### Claim C5 -/

/-- C5: adding from-imports `(m, items1)` then `(m, items2)` to an import
table holding no entry for `m` yields exactly one from-import entry for `m`
— both in the stored collection and in the emission list — whose item list
is duplicate-free and contains exactly the union of `items1` and `items2`. -/
theorem c5_from_import_union (mgr : ImportManager) (m : String)
    (items1 items2 : List String)
    (hfresh : ∀ n ∈ mgr.from_imports, n.module ≠ m) :
    (((mgr.add_from_import m items1).add_from_import m items2).from_imports.countP
        (fun n => n.module == m) = 1) ∧
    (((mgr.add_from_import m items1).add_from_import m items2).get_import_nodes.countP
        (fun e => match e with | .fromImp n => n.module == m | .plain _ => false) = 1) ∧
    (∃ node : FromImportNode,
      node ∈ ((mgr.add_from_import m items1).add_from_import m items2).from_imports ∧
      node.module = m ∧ node.items.Nodup ∧
      (∀ x, x ∈ node.items ↔ x ∈ items1 ∨ x ∈ items2)) := by
  have hlist := add_from_import_twice_fresh mgr m items1 items2 hfresh
  have hcount0 : mgr.from_imports.countP (fun n => n.module == m) = 0 := by
    rw [List.countP_eq_zero]
    intro n hn
    simpa using hfresh n hn
  refine ⟨?_, ?_, ?_⟩
  · rw [hlist, List.countP_append, hcount0]
    simp
  · unfold ImportManager.get_import_nodes
    rw [List.countP_append]
    have hplain : ((List.insertionSort ImportNode.leModule
          ((mgr.add_from_import m items1).add_from_import m items2).imports).map
            ImpEntry.plain).countP
          (fun e => match e with | .fromImp n => n.module == m | .plain _ => false) = 0 := by
      rw [List.countP_map, List.countP_eq_zero]
      intro n _
      simp [Function.comp]
    have hfrom : ((List.insertionSort FromImportNode.leModule
          ((mgr.add_from_import m items1).add_from_import m items2).from_imports).map
            ImpEntry.fromImp).countP
          (fun e => match e with | .fromImp n => n.module == m | .plain _ => false) = 1 := by
      rw [List.countP_map,
        List.Perm.countP_eq _ (List.perm_insertionSort FromImportNode.leModule _),
        hlist, List.countP_append]
      have hc0 : mgr.from_imports.countP
          ((fun e => match e with | .fromImp n => n.module == m | .plain _ => false)
            ∘ ImpEntry.fromImp) = 0 := by
        rw [List.countP_eq_zero]
        intro n hn
        simpa using hfresh n hn
      rw [hc0]
      simp
    rw [hplain, hfrom]
  · refine ⟨⟨m, (items1 ++ items2).dedup⟩, ?_, rfl, List.nodup_dedup _, ?_⟩
    · rw [hlist]
      simp
    · intro x
      simp [List.mem_dedup]

/-- Witness for C5: an empty table, `typing: [List, Dict]` then
`typing: [Dict, Optional]` — one entry whose items are exactly
`{List, Dict, Optional}`, each once. -/
theorem c5_from_import_union_witness :
    (((ImportManager.empty.add_from_import "typing" ["List", "Dict"]).add_from_import
          "typing" ["Dict", "Optional"]).from_imports.countP
        (fun n => n.module == "typing") = 1) ∧
    (((ImportManager.empty.add_from_import "typing" ["List", "Dict"]).add_from_import
          "typing" ["Dict", "Optional"]).get_import_nodes.countP
        (fun e => match e with | .fromImp n => n.module == "typing" | .plain _ => false) = 1) ∧
    (∃ node : FromImportNode,
      node ∈ ((ImportManager.empty.add_from_import "typing" ["List", "Dict"]).add_from_import
          "typing" ["Dict", "Optional"]).from_imports ∧
      node.module = "typing" ∧ node.items.Nodup ∧
      (∀ x, x ∈ node.items ↔ x ∈ ["List", "Dict"] ∨ x ∈ ["Dict", "Optional"])) :=
  c5_from_import_union ImportManager.empty "typing" ["List", "Dict"] ["Dict", "Optional"]
    (by intro n hn; simp [ImportManager.empty] at hn)

/-! ### Claim C1 -/

/-- The import table of the claim's concrete scenario: plain imports `os`
and `sys`, then the from-import `typing: [List, Dict]`. -/
def c1Scenario : ImportManager :=
  ((ImportManager.empty.add_import "os" none).add_import "sys" none).add_from_import
    "typing" ["List", "Dict"]

/-- Counterexample to C1 as stated: the from-import line keeps the items in
insertion order, so the scenario emits `from typing import List, Dict` — not
the claimed lexicographically sorted `from typing import Dict, List`. -/
theorem c1_items_not_sorted_counterexample :
    c1Scenario.emit = ["import os", "import sys", "from typing import List, Dict"] ∧
    c1Scenario.emit ≠ ["import os", "import sys", "from typing import Dict, List"] := by
  constructor
  · decide
  · decide

/-- C1 (amended): `emit()` returns the plain imports sorted lexicographically
by module name, followed by the from-imports sorted lexicographically by
module name, but each from-import line lists its items in the order stored
on the node (insertion order; merges deduplicate in unspecified set order),
not lexicographically; the concrete scenario therefore emits `import os`,
`import sys`, `from typing import List, Dict` in that order. -/
theorem c1_emit_sorted_modules :
    (c1Scenario.emit = ["import os", "import sys", "from typing import List, Dict"]) ∧
    (∀ mgr : ImportManager, ∃ p f,
      mgr.get_import_nodes = p.map ImpEntry.plain ++ f.map ImpEntry.fromImp ∧
      List.Sorted ImportNode.leModule p ∧
      List.Sorted FromImportNode.leModule f ∧
      p.Perm mgr.imports ∧ f.Perm mgr.from_imports) ∧
    (∀ n : FromImportNode,
      n.render = "from " ++ n.module ++ " import " ++ String.intercalate ", " n.items) := by
  refine ⟨by decide, ?_, fun n => rfl⟩
  intro mgr
  refine ⟨List.insertionSort ImportNode.leModule mgr.imports,
    List.insertionSort FromImportNode.leModule mgr.from_imports, rfl, ?_, ?_, ?_, ?_⟩
  · exact List.sorted_insertionSort ImportNode.leModule mgr.imports
  · exact List.sorted_insertionSort FromImportNode.leModule mgr.from_imports
  · exact List.perm_insertionSort ImportNode.leModule mgr.imports
  · exact List.perm_insertionSort FromImportNode.leModule mgr.from_imports

/-- Joining exactly two lines with a newline. -/
theorem intercalate_nl_pair (a b : String) :
    String.intercalate "\n" [a, b] = a ++ "\n" ++ b := by
  simp [String.intercalate, String.intercalate.go]

/-! ### Claim C6 -/

/-- Counterexample to C6 as stated: a `FunctionNode` with a docstring and an
empty children sequence renders without any placeholder — the `pass` guard
in `FunctionNode.render` tests `not self.docstring and not self.children`,
not children alone, so the "empty children ⇒ exactly one pass line" claim
fails on function nodes (the claim only carves out Class nodes). -/
theorem c6_function_docstring_counterexample :
    PNode.render 4 ' ' (.functionN "f" [] none [] false 0 (some "Doc.") [])
      = "def f():\n    \"\"\"Doc.\"\"\"" ∧
    (splitNl (PNode.render 4 ' ' (.functionN "f" [] none [] false 0 (some "Doc.") []))).countP
      (fun l => pyStrip l == "pass") = 0 := by
  constructor
  · decide
  · decide

/-- C6 (amended): header-plus-body blocks insert exactly one `pass` line,
indented one level deeper than the header, when the body is empty — where
for control-flow blocks "empty" means no children, while for Class *and
Function* nodes the emptiness test takes the docstring (and, for classes,
the attributes) into account: a class or function with only a docstring
gets no placeholder. -/
theorem c6_empty_body_placeholder :
    (∀ (size lvl : Nat) (ch : Char) (h : FlowHeader),
      PNode.render size ch (.flowN h lvl [])
        = mkIndent size lvl ch ++ h.headerText ++ "\n"
          ++ mkIndent size (lvl + 1) ch ++ "pass") ∧
    (∀ (size lvl : Nat) (ch : Char) (name : String) (bases decs : List String),
      PNode.render size ch (.classN name bases decs lvl none [] [])
        = String.intercalate "\n" (render_decorators decs lvl size ch
            ++ [mkIndent size lvl ch ++ "class " ++ name ++ format_bases bases ++ ":",
                mkIndent size (lvl + 1) ch ++ "pass"])) ∧
    (∀ (size lvl : Nat) (ch : Char) (name : String) (bases decs : List String) (d : String),
      d ≠ "" →
      PNode.render size ch (.classN name bases decs lvl (some d) [] [])
        = String.intercalate "\n" (render_decorators decs lvl size ch
            ++ (mkIndent size lvl ch ++ "class " ++ name ++ format_bases bases ++ ":")
              :: bodyDocLines (mkIndent size (lvl + 1) ch) (some d))) ∧
    (∀ (size lvl : Nat) (ch : Char) (name : String) (bases decs : List String)
        (a : AttributeNode) (as' : List AttributeNode),
      PNode.render size ch (.classN name bases decs lvl none (a :: as') [])
        = String.intercalate "\n" (render_decorators decs lvl size ch
            ++ (mkIndent size lvl ch ++ "class " ++ name ++ format_bases bases ++ ":")
              :: (a :: as').map (AttributeNode.render size ch))) ∧
    (∀ (size lvl : Nat) (ch : Char) (name : String) (params : List String)
        (returns : Option String) (decs : List String) (async_ : Bool),
      PNode.render size ch (.functionN name params returns decs async_ lvl none [])
        = String.intercalate "\n" (render_decorators decs lvl size ch
            ++ [mkIndent size lvl ch ++ (if async_ then "async " else "")
                  ++ "def " ++ name ++ "(" ++ format_params params ++ ")"
                  ++ format_return_type returns ++ ":",
                mkIndent size (lvl + 1) ch ++ "pass"])) ∧
    (∀ (size lvl : Nat) (ch : Char) (name : String) (params : List String)
        (returns : Option String) (decs : List String) (async_ : Bool) (d : String),
      d ≠ "" →
      PNode.render size ch (.functionN name params returns decs async_ lvl (some d) [])
        = String.intercalate "\n" (render_decorators decs lvl size ch
            ++ (mkIndent size lvl ch ++ (if async_ then "async " else "")
                  ++ "def " ++ name ++ "(" ++ format_params params ++ ")"
                  ++ format_return_type returns ++ ":")
              :: bodyDocLines (mkIndent size (lvl + 1) ch) (some d))) := by
  refine ⟨?_, ?_, ?_, ?_, ?_, ?_⟩
  · intro size lvl ch h
    simp [PNode.render, PNode.renderList, intercalate_nl_pair, String.append_assoc]
  · intro size lvl ch name bases decs
    simp [PNode.render, PNode.renderList, docTruthy, bodyDocLines]
  · intro size lvl ch name bases decs d hd
    simp [PNode.render, PNode.renderList, docTruthy, hd]
  · intro size lvl ch name bases decs a as'
    simp [PNode.render, PNode.renderList, docTruthy, bodyDocLines]
  · intro size lvl ch name params returns decs async_
    simp [PNode.render, PNode.renderList, docTruthy, bodyDocLines]
  · intro size lvl ch name params returns decs async_ d hd
    simp [PNode.render, PNode.renderList, docTruthy, hd]

/-- Witness for C6 (amended): the two docstring-guarded branches applied at
concrete inputs, alongside a concrete empty `if` block. -/
theorem c6_empty_body_placeholder_witness :
    PNode.render 4 ' ' (.classN "C" [] [] 0 (some "Doc.") [] [])
      = String.intercalate "\n" (render_decorators [] 0 4 ' '
          ++ (mkIndent 4 0 ' ' ++ "class " ++ "C" ++ format_bases [] ++ ":")
            :: bodyDocLines (mkIndent 4 1 ' ') (some "Doc.")) ∧
    PNode.render 4 ' ' (.functionN "f" [] none [] false 0 (some "Doc.") [])
      = String.intercalate "\n" (render_decorators [] 0 4 ' '
          ++ (mkIndent 4 0 ' ' ++ (if false then "async " else "")
                ++ "def " ++ "f" ++ "(" ++ format_params [] ++ ")"
                ++ format_return_type none ++ ":")
            :: bodyDocLines (mkIndent 4 1 ' ') (some "Doc.")) ∧
    PNode.render 4 ' ' (.flowN (.ifH "x > 0") 0 [])
      = mkIndent 4 0 ' ' ++ FlowHeader.headerText (.ifH "x > 0") ++ "\n"
        ++ mkIndent 4 1 ' ' ++ "pass" :=
  ⟨c6_empty_body_placeholder.2.2.1 4 0 ' ' "C" [] [] "Doc." (by decide),
   c6_empty_body_placeholder.2.2.2.2.2 4 0 ' ' "f" [] none [] false "Doc." (by decide),
   c6_empty_body_placeholder.1 4 0 ' ' (.ifH "x > 0")⟩

/-! ### Claim C7 -/

/-- C7: `method(...)` parameter handling — with no parameters (omitted or
empty) the list is exactly `["self"]`; when the first supplied entry does
not already denote a self/receiver binding (which the source detects as the
substring test `"self" in params[0] or "cls" in params[0]`), `"self"` is
prepended; otherwise the supplied list is used unchanged.  The final
conjunct ties this to the builder's `method` operation: the pushed method
scope carries exactly `method_params params`. -/
theorem c7_method_self_injection :
    (method_params none = ["self"]) ∧
    (method_params (some []) = ["self"]) ∧
    (∀ (p : String) (ps : List String),
      (pyIn "self" p || pyIn "cls" p) = false →
      method_params (some (p :: ps)) = "self" :: p :: ps) ∧
    (∀ (p : String) (ps : List String),
      (pyIn "self" p || pyIn "cls" p) = true →
      method_params (some (p :: ps)) = p :: ps) ∧
    (∀ (b : CodeBuilder) (name : String) (params : Option (List String))
        (returns : Option String) (decs : List String) (async_ : Bool),
      (b.enterScope (.functionScope name params returns decs async_ true)).context_stack
        = Frame.functionFrame name (method_params params) returns decs async_
            b.indent_manager.level none [] :: b.context_stack) := by
  refine ⟨rfl, rfl, ?_, ?_, ?_⟩
  · intro p ps h
    simp [method_params, h]
  · intro p ps h
    simp only [method_params]
    rw [if_pos h]
  · intro b name params returns decs async_
    rfl

/-- Witness for C7: the substring test discharged concretely on both sides
— `"x: int"` gets `self` injected, `"cls"` is kept as supplied. -/
theorem c7_method_self_injection_witness :
    method_params (some ["x: int"]) = ["self", "x: int"] ∧
    method_params (some ["cls", "y"]) = ["cls", "y"] :=
  ⟨c7_method_self_injection.2.2.1 "x: int" [] (by decide),
   c7_method_self_injection.2.2.2.1 "cls" ["y"] (by decide)⟩

/-! ### Claim C8 -/

/-- C8: `generate()` emits the import table's rendered entries first; the
two blank separator lines appear exactly when both the import list and the
root node sequence are non-empty; then the root nodes are rendered in
insertion order, everything joined with single newlines. -/
theorem c8_generate_layout (b : CodeBuilder) :
    (b.import_manager.get_import_nodes ≠ [] → b.nodes ≠ [] →
      b.generate = String.intercalate "\n"
        (b.import_manager.emit ++ ["", ""]
          ++ b.nodes.map (PNode.render b.indent_size b.indent_char))) ∧
    (b.import_manager.get_import_nodes = [] ∨ b.nodes = [] →
      b.generate = String.intercalate "\n"
        (b.import_manager.emit
          ++ b.nodes.map (PNode.render b.indent_size b.indent_char))) := by
  constructor
  · intro h1 h2
    simp [CodeBuilder.generate, ImportManager.emit, List.isEmpty_eq_false, h1, h2]
  · intro h
    rcases h with h | h
    · simp [CodeBuilder.generate, ImportManager.emit, h]
    · simp [CodeBuilder.generate, ImportManager.emit, h]

/-- Witness for C8: one deferred import plus one root line — both branch
hypotheses are discharged on concrete builders, giving
`import os`, two blank lines, `x = 1`. -/
theorem c8_generate_layout_witness :
    (((CodeBuilder.init 4 ' ').add_import "os" none).line "x = 1").generate
      = String.intercalate "\n"
          ((((CodeBuilder.init 4 ' ').add_import "os" none).line "x = 1").import_manager.emit
            ++ ["", ""]
            ++ (((CodeBuilder.init 4 ' ').add_import "os" none).line "x = 1").nodes.map
                (PNode.render 4 ' ')) ∧
    (CodeBuilder.init 4 ' ').generate
      = String.intercalate "\n"
          ((CodeBuilder.init 4 ' ').import_manager.emit
            ++ (CodeBuilder.init 4 ' ').nodes.map (PNode.render 4 ' ')) :=
  ⟨(c8_generate_layout (((CodeBuilder.init 4 ' ').add_import "os" none).line "x = 1")).1
      (by decide) (by exact List.cons_ne_nil _ _),
   (c8_generate_layout (CodeBuilder.init 4 ' ')).2 (Or.inr rfl)⟩

/-! ### Claim C9 -/

theorem renderList_append (size : Nat) (ch : Char) (l₁ l₂ : List PNode) :
    PNode.renderList size ch (l₁ ++ l₂)
      = PNode.renderList size ch l₁ ++ PNode.renderList size ch l₂ := by
  induction l₁ with
  | nil => rfl
  | cons n ns ih =>
    simp [PNode.renderList, ih]

/-- C9: `FunctionNode.render` (and so `MethodNode.render`) filters its body
with a truthiness test, dropping children that render to the empty string
(blank lines, whitespace-only raw lines); Class and control-flow renderers
keep such empty lines.  The first conjunct shows dropping an empty-rendering
child does not change a function's output (as long as other children
remain); the remaining conjuncts contrast the behaviours concretely. -/
theorem c9_function_omits_empty_lines :
    (∀ (size lvl : Nat) (ch : Char) (name : String) (params : List String)
        (returns : Option String) (decs : List String) (async_ : Bool)
        (doc : Option String) (pre post : List PNode) (c : PNode),
      PNode.render size ch c = "" → pre ++ post ≠ [] →
      PNode.render size ch (.functionN name params returns decs async_ lvl doc (pre ++ c :: post))
        = PNode.render size ch (.functionN name params returns decs async_ lvl doc (pre ++ post))) ∧
    (PNode.render 4 ' ' (.functionN "f" ["self"] none [] false 0 none
        [.blankLine, .rawLine "return 1" 1]) = "def f(self):\n    return 1") ∧
    (PNode.render 4 ' ' (.functionN "f" ["self"] none [] false 0 none
        [.rawLine "   " 1, .rawLine "return 1" 1]) = "def f(self):\n    return 1") ∧
    (PNode.render 4 ' ' (.flowN (.ifH "c") 0 [.blankLine, .rawLine "return 1" 1])
        = "if c:\n\n    return 1") ∧
    (PNode.render 4 ' ' (.classN "C" [] [] 0 none [] [.blankLine]) = "class C:\n") := by
  refine ⟨?_, by decide, by decide, by decide, by decide⟩
  intro size lvl ch name params returns decs async_ doc pre post c hc hne
  simp only [PNode.render, renderList_append, PNode.renderList]
  rw [hc]
  have hne1 : (pre ++ c :: post).isEmpty = false := by
    simp [List.isEmpty_eq_false]
  have hne2 : (pre ++ post).isEmpty = false := by
    simp [List.isEmpty_eq_false, hne]
  rw [hne1, hne2]
  simp [List.filter_append]

/-- Witness for C9: the removal-invariance applied with a blank-line child
between no predecessor and one real sibling. -/
theorem c9_function_omits_empty_lines_witness :
    PNode.render 4 ' ' (.functionN "f" ["self"] none [] false 0 none
        ([] ++ PNode.blankLine :: [.rawLine "return 1" 1]))
      = PNode.render 4 ' ' (.functionN "f" ["self"] none [] false 0 none
        ([] ++ [.rawLine "return 1" 1])) :=
  c9_function_omits_empty_lines.1 4 0 ' ' "f" ["self"] none [] false none
    [] [.rawLine "return 1" 1] .blankLine rfl (by exact List.cons_ne_nil _ _)

end CodeCraft
